import Mathlib

/-!
Verification of the persistent knowledge store ("brain") of the MiniAI
program in `newfile.py`.

Shallow embedding conventions:
  * Python strings are modelled as `List Char` (`Str`); `str.lower` is
    `lowerStr`, `str.strip` is `stripStr`, and the Python substring test
    `needle in hay` is `needle <:+: hay` (`List.IsInfix`).
  * The JSON document held in `self.attributes` is the structure `Brain`;
    `long_term_memory` is an insertion-ordered mapping from category name to
    a fact list, modelled as an association list with first-match lookup,
    in-place update of an existing key, and new keys appended at the end —
    exactly the Python `dict` semantics used by the code.
  * The primary/backup file pair is the structure `FS`; a file is absent
    (`none`), or present with contents that either parse to a document
    (`FileContent.valid`) or fail to parse (`FileContent.invalid`).
    `json.dump` of a document always yields `valid` contents and
    `shutil.copy` copies contents verbatim.
  * `datetime.now()` timestamps are passed in as explicit parameters.
  * The fallible save step in `sleep_and_save` is driven by an `ioOk` flag:
    `true` models the `try` block succeeding, `false` models it raising and
    being caught by the `except` clause.  A failed save is modelled as
    leaving the files as they were; no theorem below depends on the on-disk
    state after a failed save.  Python raising an uncaught exception is
    modelled with `Except.error`.
-/

namespace MiniBrain

abbrev Str := List Char

/-- `master_info` block of the document. -/
structure MasterInfo where
  name : Str
  access_level : Str
  location : Str
deriving DecidableEq

/-- A durable fact stored in `long_term_memory`.  The seeded bootstrap fact
has no `category` key, while facts merged from the short-term memory do,
hence the `Option`. -/
structure Fact where
  category : Option Str
  data : Str
  timestamp : Str
deriving DecidableEq

/-- An entry of `short_term_memory`, as produced by `MiniAI.learn`. -/
structure PendingFact where
  category : Str
  data : Str
  timestamp : Str
deriving DecidableEq

/-- A pending fact appended into long-term memory is the same dict, so its
`category` key is present. -/
def PendingFact.toFact (p : PendingFact) : Fact :=
  { category := some p.category, data := p.data, timestamp := p.timestamp }

/-- `long_term_memory`: insertion-ordered mapping category → fact list. -/
abbrev Ltm := List (Str × List Fact)

/-- The persistent document (`self.attributes`). -/
structure Brain where
  master_info : MasterInfo
  level : Nat
  intelligence_points : Nat
  long_term_memory : Ltm
deriving DecidableEq

/-- Lookup of a category in `long_term_memory` (Python `dict` access:
first — and only — matching key). -/
def ltmLookup : Ltm → Str → Option (List Fact)
  | [], _ => none
  | (c, fs) :: rest, q => if c = q then some fs else ltmLookup rest q

/-- The seeded fact of the `CORE_DIRECTIVE` category in the blueprint. -/
def coreFact : Fact :=
  { category := none
    data := "I am Mini, the External Brain for Achmed Davids. My goal is to serve as a digital extension of his memory.".toList
    timestamp := "2026-01-26".toList }

/-- The `DEFAULT_BRAIN_STRUCTURE` blueprint from the top of the file. -/
def DEFAULT_BRAIN_STRUCTURE : Brain :=
  { master_info :=
      { name := "Achmed Davids".toList
        access_level := "Soul Master".toList
        location := "Mitchell\x27s Plain, CP".toList }
    level := 1
    intelligence_points := 50
    long_term_memory := [("CORE_DIRECTIVE".toList, [coreFact])] }

/-- Contents of a file on disk, as far as `json.load` is concerned. -/
inductive FileContent where
  | valid (doc : Brain)
  | invalid
deriving DecidableEq

/-- The primary (`mini_brain.json`) / backup (`mini_brain_backup.json`)
file pair in the working directory. -/
structure FS where
  primary : Option FileContent
  backup : Option FileContent
deriving DecidableEq

/-- `MiniAI.create_new_brain`: write the blueprint as the new primary file
and return it. -/
def create_new_brain (fs : FS) : Brain × FS :=
  (DEFAULT_BRAIN_STRUCTURE, { fs with primary := some (.valid DEFAULT_BRAIN_STRUCTURE) })

/-- `MiniAI.load_brain`.  Returns the loaded document and the resulting
file state, or `Except.error ()` when an uncaught `json.JSONDecodeError`
escapes (which happens when the primary is corrupt and the backup copied
over it is corrupt as well: the second `json.load` is outside any `try`). -/
def load_brain (fs : FS) : Except Unit (Brain × FS) :=
  match fs.primary with
  | some (.valid doc) => .ok (doc, fs)
  | some .invalid =>
    match fs.backup with
    | some c =>
      match c with
      | .valid doc => .ok (doc, { fs with primary := some c })
      | .invalid => .error ()
    | none => .ok (create_new_brain fs)
  | none => .ok (create_new_brain fs)

/-- `MiniAI.learn`: append one entry to `short_term_memory`.  The timestamp
(`datetime.now()` in the code) is an explicit parameter. -/
def learn (stm : List PendingFact) (category knowledge timestamp : Str) :
    List PendingFact :=
  stm ++ [{ category := category, data := knowledge, timestamp := timestamp }]

/-- The per-session mutable state of a `MiniAI` object: `self.attributes`
and `self.short_term_memory`. -/
structure Session where
  attributes : Brain
  short_term_memory : List PendingFact
deriving DecidableEq

/-- `MiniAI.learn` seen on the whole session state: it touches only
`short_term_memory`. -/
def Session.learn (s : Session) (category knowledge timestamp : Str) : Session :=
  { s with short_term_memory := MiniBrain.learn s.short_term_memory category knowledge timestamp }

/-- The duplicate check inside `sleep_and_save`: append `mem` to the
category's list unless some existing fact has identical `data`. -/
def addFact (facts : List Fact) (mem : PendingFact) : List Fact :=
  if mem.data ∈ facts.map Fact.data then facts else facts ++ [mem.toFact]

/-- Merge one pending fact into `long_term_memory`: create the category at
the end of the mapping if absent, then `addFact` into its list. -/
def mergeOne : Ltm → PendingFact → Ltm
  | [], mem => [(mem.category, addFact [] mem)]
  | (c, fs) :: rest, mem =>
    if c = mem.category then (c, addFact fs mem) :: rest
    else (c, fs) :: mergeOne rest mem

/-- Step 1 of `sleep_and_save`: merge every staged fact, in arrival order. -/
def commitMemory (ltm : Ltm) (stm : List PendingFact) : Ltm :=
  stm.foldl mergeOne ltm

/-- Step 2 of `sleep_and_save` (the `if new_items > 0:` block): XP and
level update, driven by the count of drained staged facts. -/
def applyGain (doc : Brain) (mergedCount : Nat) : Brain :=
  if mergedCount > 0 then
    let cur_xp := doc.intelligence_points + mergedCount * 50
    let new_lvl := 1 + cur_xp / 200
    { doc with
        intelligence_points := cur_xp
        level := if new_lvl > doc.level then new_lvl else doc.level }
  else doc

/-- `applyGain` folded over a whole sequence of commit cycles. -/
def iterGain (doc : Brain) (ns : List Nat) : Brain :=
  ns.foldl applyGain doc

/-- Step 4 of `sleep_and_save` when the `try` block succeeds: copy the
primary over the backup when the primary exists, then write the document
as the new primary. -/
def commitFS (fs : FS) (doc : Brain) : FS :=
  { primary := some (.valid doc)
    backup := if fs.primary.isSome then fs.primary else fs.backup }

/-- `commitFS` over a run of successive successful saves. -/
def commits (fs : FS) (ds : List Brain) : FS :=
  ds.foldl commitFS fs

/-- Result of one `sleep_and_save` call: the new `self.attributes`, the
(emptied) `short_term_memory`, the file state, whether the save step
succeeded, and the `new_items` count the code based the XP gain on. -/
structure SaveResult where
  attrs : Brain
  short_term_memory : List PendingFact
  fs : FS
  saved : Bool
  mergedCount : Nat
deriving DecidableEq

/-- `MiniAI.sleep_and_save`: merge, XP/level update, clear the buffer,
then backup-and-save (the latter guarded by `ioOk`, see the header). -/
def sleep_and_save (attrs : Brain) (stm : List PendingFact) (fs : FS)
    (ioOk : Bool) : SaveResult :=
  let new_items := stm.length
  let attrs1 := { attrs with long_term_memory := commitMemory attrs.long_term_memory stm }
  let attrs2 := applyGain attrs1 new_items
  { attrs := attrs2
    short_term_memory := []
    fs := if ioOk then commitFS fs attrs2 else fs
    saved := ioOk
    mergedCount := new_items }

/-- Python `str.lower`. -/
def lowerStr (s : Str) : Str := s.map Char.toLower

/-- Python `str.strip`: drop leading and trailing whitespace. -/
def stripStr (s : Str) : Str :=
  ((s.dropWhile Char.isWhitespace).reverse.dropWhile Char.isWhitespace).reverse

/-- `MiniAI.recall_memory`, returning the printed (category, fact) matches
in order instead of printing them.  The query is lowercased and stripped
exactly as in the code. -/
def recall_memory (memories : Ltm) (rawQuery : Str) : List (Str × Fact) :=
  let query := stripStr (lowerStr rawQuery)
  memories.flatMap (fun p =>
    if query <:+: lowerStr p.1 then
      p.2.map (fun item => (p.1, item))
    else
      (p.2.filter (fun item => decide (query <:+: lowerStr item.data))).map
        (fun item => (p.1, item)))

/-- The document invariant relating level to intelligence points. -/
def LevelInv (doc : Brain) : Prop :=
  doc.level = 1 + doc.intelligence_points / 200

instance (doc : Brain) : Decidable (LevelInv doc) := by
  unfold LevelInv; infer_instance

/-- Per-category duplicate freedom of `long_term_memory`: within every
category's list, no two facts carry identical `data`. -/
def NoDupData (ltm : Ltm) : Prop :=
  ∀ p ∈ ltm, (p.2.map Fact.data).Nodup

instance (ltm : Ltm) : Decidable (NoDupData ltm) := by
  unfold NoDupData; infer_instance

/-- Concrete staged fact used in sanity checks. -/
def exPending : PendingFact :=
  { category := "NOTES".toList
    data := "hello".toList
    timestamp := "2026-02-02 10:00:00".toList }

/-- A working directory holding the freshly bootstrapped primary file. -/
def fs0 : FS :=
  { primary := some (.valid DEFAULT_BRAIN_STRUCTURE), backup := none }

/-- The example document of the recall test: an ENGINE category with an
IGBT fact and a LEGAL category with a case fact. -/
def igbtFact : Fact :=
  { category := none
    data := "IGBT driver uses TC4420CPA".toList
    timestamp := "2026-02-02".toList }

def caseFact : Fact :=
  { category := none
    data := "Case filed 2024".toList
    timestamp := "2026-02-02".toList }

def exampleMem : Ltm :=
  [("ENGINE".toList, [igbtFact]), ("LEGAL".toList, [caseFact])]

@[simp]
theorem PendingFact.toFact_data (p : PendingFact) : p.toFact.data = p.data := rfl

theorem addFact_eq_append (facts : List Fact) (mem : PendingFact) :
    ∃ ex, addFact facts mem = facts ++ ex := by
  unfold addFact
  split
  · exact ⟨[], by simp⟩
  · exact ⟨[mem.toFact], rfl⟩

theorem ltmLookup_mergeOne_self (ltm : Ltm) (mem : PendingFact) :
    ltmLookup (mergeOne ltm mem) mem.category =
      some (addFact ((ltmLookup ltm mem.category).getD []) mem) := by
  induction ltm with
  | nil => simp [mergeOne, ltmLookup]
  | cons p rest ih =>
    obtain ⟨c, fs⟩ := p
    by_cases h : c = mem.category
    · subst h
      simp [mergeOne, ltmLookup]
    · simp [mergeOne, ltmLookup, h, ih]

theorem ltmLookup_mergeOne_ne (ltm : Ltm) (mem : PendingFact) (c : Str)
    (h : c ≠ mem.category) :
    ltmLookup (mergeOne ltm mem) c = ltmLookup ltm c := by
  have h' : mem.category ≠ c := Ne.symm h
  induction ltm with
  | nil => simp [mergeOne, ltmLookup, h']
  | cons p rest ih =>
    obtain ⟨c', fs⟩ := p
    by_cases hc' : c' = mem.category
    · subst hc'
      simp [mergeOne, ltmLookup, h']
    · by_cases hcc : c' = c
      · subst hcc
        simp [mergeOne, ltmLookup, hc']
      · simp [mergeOne, ltmLookup, hc', hcc, ih]

theorem mergeOne_of_dup (ltm : Ltm) (mem : PendingFact)
    (h : mem.data ∈ ((ltmLookup ltm mem.category).getD []).map Fact.data) :
    mergeOne ltm mem = ltm := by
  induction ltm with
  | nil => simp [ltmLookup] at h
  | cons p rest ih =>
    obtain ⟨c, fs⟩ := p
    by_cases hc : c = mem.category
    · subst hc
      simp [ltmLookup] at h
      simp [mergeOne, addFact, h]
    · simp only [ltmLookup, if_neg hc] at h
      simp [mergeOne, hc, ih h]

theorem ltmLookup_mergeOne_append (ltm : Ltm) (mem : PendingFact) (c : Str)
    (fsc : List Fact) (h : ltmLookup ltm c = some fsc) :
    ∃ ex, ltmLookup (mergeOne ltm mem) c = some (fsc ++ ex) := by
  by_cases hc : c = mem.category
  · subst hc
    obtain ⟨ex, hex⟩ := addFact_eq_append fsc mem
    refine ⟨ex, ?_⟩
    rw [ltmLookup_mergeOne_self, h]
    simp [hex]
  · exact ⟨[], by rw [ltmLookup_mergeOne_ne ltm mem c hc, h, List.append_nil]⟩

theorem ltmLookup_commitMemory_append (stm : List PendingFact) :
    ∀ (ltm : Ltm) (c : Str) (fsc : List Fact), ltmLookup ltm c = some fsc →
      ∃ ex, ltmLookup (commitMemory ltm stm) c = some (fsc ++ ex) := by
  induction stm with
  | nil => exact fun ltm c fsc h => ⟨[], by simpa [commitMemory] using h⟩
  | cons m ms ih =>
    intro ltm c fsc h
    obtain ⟨e1, h1⟩ := ltmLookup_mergeOne_append ltm m c fsc h
    obtain ⟨e2, h2⟩ := ih (mergeOne ltm m) c (fsc ++ e1) h1
    exact ⟨e1 ++ e2, by simpa [commitMemory, List.append_assoc] using h2⟩

theorem nodup_addFact (facts : List Fact) (mem : PendingFact)
    (h : (facts.map Fact.data).Nodup) :
    ((addFact facts mem).map Fact.data).Nodup := by
  unfold addFact
  split
  · exact h
  · rename_i hn
    simp [List.nodup_append, h, hn]

theorem nodup_mergeOne (ltm : Ltm) (mem : PendingFact) (h : NoDupData ltm) :
    NoDupData (mergeOne ltm mem) := by
  induction ltm with
  | nil =>
    intro p hp
    simp only [mergeOne, List.mem_singleton] at hp
    subst hp
    exact nodup_addFact [] mem (by simp)
  | cons q rest ih =>
    obtain ⟨c, fs⟩ := q
    by_cases hc : c = mem.category
    · subst hc
      intro p hp
      rw [show mergeOne ((mem.category, fs) :: rest) mem
            = (mem.category, addFact fs mem) :: rest by
          simp [mergeOne]] at hp
      rcases List.mem_cons.mp hp with hp | hp
      · subst hp
        exact nodup_addFact fs mem (h (mem.category, fs) (by simp))
      · exact h p (List.mem_cons_of_mem _ hp)
    · intro p hp
      rw [show mergeOne ((c, fs) :: rest) mem
            = (c, fs) :: mergeOne rest mem by
          simp [mergeOne, hc]] at hp
      rcases List.mem_cons.mp hp with hp | hp
      · subst hp
        exact h (c, fs) (by simp)
      · exact ih (fun r hr => h r (List.mem_cons_of_mem _ hr)) p hp

theorem nodup_commitMemory (stm : List PendingFact) :
    ∀ ltm : Ltm, NoDupData ltm → NoDupData (commitMemory ltm stm) := by
  induction stm with
  | nil => exact fun ltm h => by simpa [commitMemory] using h
  | cons m ms ih =>
    intro ltm h
    simpa [commitMemory] using ih (mergeOne ltm m) (nodup_mergeOne ltm m h)

theorem applyGain_points (doc : Brain) (n : Nat) :
    (applyGain doc n).intelligence_points = doc.intelligence_points + n * 50 := by
  unfold applyGain
  split
  · rfl
  · rename_i h
    have hn : n = 0 := by omega
    subst hn
    simp

theorem applyGain_master (doc : Brain) (n : Nat) :
    (applyGain doc n).master_info = doc.master_info := by
  unfold applyGain
  split <;> rfl

theorem applyGain_ltm (doc : Brain) (n : Nat) :
    (applyGain doc n).long_term_memory = doc.long_term_memory := by
  unfold applyGain
  split <;> rfl

theorem applyGain_zero (doc : Brain) : applyGain doc 0 = doc := by
  simp [applyGain]

theorem applyGain_level_max (doc : Brain) (n : Nat) (h : 0 < n) :
    (applyGain doc n).level
      = max doc.level (1 + (doc.intelligence_points + n * 50) / 200) := by
  unfold applyGain
  rw [if_pos h]
  simp only
  split <;> omega

theorem applyGain_levelInv (doc : Brain) (n : Nat) (h : LevelInv doc) :
    LevelInv (applyGain doc n) ∧ doc.level ≤ (applyGain doc n).level := by
  have hd : doc.intelligence_points / 200 ≤ (doc.intelligence_points + n * 50) / 200 :=
    Nat.div_le_div_right (by omega)
  unfold LevelInv at *
  unfold applyGain
  split
  · constructor <;> simp only <;> split <;> omega
  · exact ⟨h, Nat.le_refl _⟩

theorem iterGain_cons (doc : Brain) (n : Nat) (ms : List Nat) :
    iterGain doc (n :: ms) = iterGain (applyGain doc n) ms := by
  simp [iterGain]

theorem iterGain_append (doc : Brain) (ns ms : List Nat) :
    iterGain doc (ns ++ ms) = iterGain (iterGain doc ns) ms := by
  simp [iterGain, List.foldl_append]

theorem levelInv_iterGain (ns : List Nat) :
    ∀ doc : Brain, LevelInv doc →
      LevelInv (iterGain doc ns) ∧ doc.level ≤ (iterGain doc ns).level := by
  induction ns with
  | nil => exact fun doc h => ⟨by simpa [iterGain] using h, Nat.le_refl _⟩
  | cons n ms ih =>
    intro doc h
    obtain ⟨h1, h2⟩ := applyGain_levelInv doc n h
    obtain ⟨h3, h4⟩ := ih (applyGain doc n) h1
    rw [iterGain_cons]
    exact ⟨h3, le_trans h2 h4⟩

theorem levelInv_default : LevelInv DEFAULT_BRAIN_STRUCTURE := by decide

theorem commitFS_primary (fs : FS) (doc : Brain) :
    (commitFS fs doc).primary = some (.valid doc) := rfl

theorem commits_primary_isSome (ds : List Brain) :
    ∀ fs : FS, fs.primary.isSome → (commits fs ds).primary.isSome := by
  induction ds with
  | nil => exact fun fs h => by simpa [commits] using h
  | cons d ds ih =>
    intro fs h
    simpa [commits] using ih (commitFS fs d) (by simp [commitFS])

theorem commits_append_single (fs : FS) (ds : List Brain) (d : Brain) :
    commits fs (ds ++ [d]) = commitFS (commits fs ds) d := by
  simp [commits, List.foldl_append]

/-- The empty list is a contiguous part of every list (Python: the empty
string is a substring of every string). -/
theorem empty_substring (l : Str) : ([] : Str) <:+: l := ⟨[], l, by simp⟩

theorem recall_mem_catHit (memories : Ltm) (q : Str) (p : Str × List Fact)
    (item : Fact) (hp : p ∈ memories)
    (hq : stripStr (lowerStr q) <:+: lowerStr p.1) (hi : item ∈ p.2) :
    (p.1, item) ∈ recall_memory memories q := by
  simp only [recall_memory]
  refine List.mem_flatMap.mpr ⟨p, hp, ?_⟩
  rw [if_pos hq]
  exact List.mem_map.mpr ⟨item, hi, rfl⟩

theorem recall_mem_dataHit (memories : Ltm) (q : Str) (p : Str × List Fact)
    (item : Fact) (hp : p ∈ memories)
    (hq : ¬ stripStr (lowerStr q) <:+: lowerStr p.1) (hi : item ∈ p.2)
    (hd : stripStr (lowerStr q) <:+: lowerStr item.data) :
    (p.1, item) ∈ recall_memory memories q := by
  simp only [recall_memory]
  refine List.mem_flatMap.mpr ⟨p, hp, ?_⟩
  rw [if_neg hq]
  exact List.mem_map.mpr ⟨item, List.mem_filter.mpr ⟨hi, decide_eq_true hd⟩, rfl⟩

theorem recall_nothing (memories : Ltm) (q : Str)
    (h : ∀ p ∈ memories, ¬ stripStr (lowerStr q) <:+: lowerStr p.1 ∧
      ∀ item ∈ p.2, ¬ stripStr (lowerStr q) <:+: lowerStr item.data) :
    recall_memory memories q = [] := by
  simp only [recall_memory]
  rw [List.flatMap_eq_nil_iff]
  intro p hp
  rw [if_neg (h p hp).1, List.map_eq_nil_iff, List.filter_eq_nil_iff]
  intro item hi
  simpa using (h p hp).2 item hi

theorem recall_length_le (memories : Ltm) (q : Str) :
    (recall_memory memories q).length ≤ (memories.map (fun r => r.2.length)).sum := by
  simp only [recall_memory]
  rw [List.length_flatMap]
  simp only [Function.comp_def]
  apply List.sum_le_sum
  intro p hp
  split
  · simp
  · simpa using List.length_filter_le _ p.2

theorem recall_blank (memories : Ltm) (q : Str)
    (h : stripStr (lowerStr q) = []) :
    recall_memory memories q
      = memories.flatMap (fun p => p.2.map (fun item => (p.1, item))) := by
  simp only [recall_memory, h]
  induction memories with
  | nil => rfl
  | cons p rest ih =>
    simp only [List.flatMap_cons, if_pos (empty_substring (lowerStr p.1)), ih]

/-- C1 (counterexample): the count the code feeds into the XP update is
`new_items = len(short_term_memory)`, not the number of facts actually
appended.  Staging the same `(category, content)` pair twice and committing
once yields a count of 2 and 100 points of gain even though only one fact
is appended; committing a pair already present in long-term memory yields
a count of 1 (not 0) and still changes points and level. -/
theorem C1_counterexample :
    (sleep_and_save DEFAULT_BRAIN_STRUCTURE [exPending, exPending] fs0 true).mergedCount = 2
  ∧ ltmLookup (sleep_and_save DEFAULT_BRAIN_STRUCTURE [exPending, exPending] fs0
      true).attrs.long_term_memory "NOTES".toList = some [exPending.toFact]
  ∧ (sleep_and_save DEFAULT_BRAIN_STRUCTURE [exPending, exPending] fs0
      true).attrs.intelligence_points = 150
  ∧ (sleep_and_save (sleep_and_save DEFAULT_BRAIN_STRUCTURE [exPending, exPending] fs0
      true).attrs [exPending] fs0 true).mergedCount = 1
  ∧ (sleep_and_save (sleep_and_save DEFAULT_BRAIN_STRUCTURE [exPending, exPending] fs0
      true).attrs [exPending] fs0 true).attrs.intelligence_points = 200
  ∧ (sleep_and_save (sleep_and_save DEFAULT_BRAIN_STRUCTURE [exPending, exPending] fs0
      true).attrs [exPending] fs0 true).attrs.level = 2 := by
  decide

/-- C1 (amended): the commit cycle's count equals the number of drained
staged facts, duplicates included; it is 0 exactly when the buffer was
empty, and in that case intelligence points and level are left unchanged. -/
theorem C1_merged_count (attrs : Brain) (stm : List PendingFact) (fs : FS)
    (ioOk : Bool) :
    (sleep_and_save attrs stm fs ioOk).mergedCount = stm.length
  ∧ (stm = [] →
      (sleep_and_save attrs stm fs ioOk).attrs.intelligence_points
          = attrs.intelligence_points
      ∧ (sleep_and_save attrs stm fs ioOk).attrs.level = attrs.level) := by
  refine ⟨rfl, ?_⟩
  rintro rfl
  exact ⟨rfl, rfl⟩

/-- C1 witness: committing with an empty buffer leaves points and level of
the bootstrap document unchanged. -/
theorem C1_witness :
    (sleep_and_save DEFAULT_BRAIN_STRUCTURE [] fs0 true).mergedCount = 0
  ∧ (sleep_and_save DEFAULT_BRAIN_STRUCTURE [] fs0 true).attrs.intelligence_points
      = DEFAULT_BRAIN_STRUCTURE.intelligence_points
  ∧ (sleep_and_save DEFAULT_BRAIN_STRUCTURE [] fs0 true).attrs.level
      = DEFAULT_BRAIN_STRUCTURE.level := by
  obtain ⟨h1, h2⟩ := C1_merged_count DEFAULT_BRAIN_STRUCTURE [] fs0 true
  obtain ⟨h3, h4⟩ := h2 rfl
  exact ⟨h1, h3, h4⟩

/-- C2: merging a pending fact appends it (converted to a durable fact) at
the end of its category's list — the category being created on first use —
exactly when no fact of that list has identical data, and discards it
otherwise leaving the mapping unchanged; other categories are untouched,
and a whole commit preserves per-category duplicate freedom. -/
theorem C2_commit_dedup (ltm : Ltm) (mem : PendingFact) (stm : List PendingFact) :
    (mem.data ∉ ((ltmLookup ltm mem.category).getD []).map Fact.data →
      ltmLookup (mergeOne ltm mem) mem.category
        = some (((ltmLookup ltm mem.category).getD []) ++ [mem.toFact]))
  ∧ (mem.data ∈ ((ltmLookup ltm mem.category).getD []).map Fact.data →
      mergeOne ltm mem = ltm)
  ∧ (∀ c, c ≠ mem.category → ltmLookup (mergeOne ltm mem) c = ltmLookup ltm c)
  ∧ (NoDupData ltm → NoDupData (commitMemory ltm stm)) := by
  refine ⟨?_, mergeOne_of_dup ltm mem,
    fun c hc => ltmLookup_mergeOne_ne ltm mem c hc, nodup_commitMemory stm ltm⟩
  intro hnot
  rw [ltmLookup_mergeOne_self]
  unfold addFact
  rw [if_neg hnot]

/-- C2 witness: merging a fresh fact creates its category with exactly that
fact, re-merging the identical fact is a no-op, the LEGAL category is
untouched, and a commit of two identical staged facts keeps every category
duplicate-free. -/
theorem C2_witness :
    ltmLookup (mergeOne exampleMem exPending) exPending.category
      = some [exPending.toFact]
  ∧ mergeOne (mergeOne exampleMem exPending) exPending
      = mergeOne exampleMem exPending
  ∧ ltmLookup (mergeOne exampleMem exPending) "LEGAL".toList
      = ltmLookup exampleMem "LEGAL".toList
  ∧ NoDupData (commitMemory exampleMem [exPending, exPending]) := by
  refine ⟨?_, ?_, ?_, ?_⟩
  · exact ((C2_commit_dedup exampleMem exPending []).1 (by decide)).trans (by decide)
  · exact (C2_commit_dedup (mergeOne exampleMem exPending) exPending []).2.1 (by decide)
  · exact (C2_commit_dedup exampleMem exPending []).2.2.1 "LEGAL".toList (by decide)
  · exact (C2_commit_dedup exampleMem exPending [exPending, exPending]).2.2.2 (by decide)

/-- C3: the XP/level update adds `mergedCount * 50` points, raises the
level to `1 + points / 200` exactly when that exceeds the current level,
and along every sequence of gains applied from the bootstrap document the
invariant `level = 1 + points / 200` holds after every call while the
level never decreases. -/
theorem C3_applyGain (doc : Brain) (n : Nat) (ns ms : List Nat) :
    (applyGain doc n).intelligence_points = doc.intelligence_points + n * 50
  ∧ (0 < n → (applyGain doc n).level
      = max doc.level (1 + (doc.intelligence_points + n * 50) / 200))
  ∧ (LevelInv doc → LevelInv (applyGain doc n) ∧ doc.level ≤ (applyGain doc n).level)
  ∧ LevelInv (iterGain DEFAULT_BRAIN_STRUCTURE ns)
  ∧ (iterGain DEFAULT_BRAIN_STRUCTURE ns).level
      ≤ (iterGain DEFAULT_BRAIN_STRUCTURE (ns ++ ms)).level := by
  refine ⟨applyGain_points doc n, applyGain_level_max doc n, applyGain_levelInv doc n,
    (levelInv_iterGain ns DEFAULT_BRAIN_STRUCTURE levelInv_default).1, ?_⟩
  rw [iterGain_append]
  exact (levelInv_iterGain ms _
    (levelInv_iterGain ns DEFAULT_BRAIN_STRUCTURE levelInv_default).1).2

/-- C3 witness: a gain of 3 facts from the bootstrap document yields 200
points and level 2, keeping the invariant; further gains never lower the
level. -/
theorem C3_witness :
    (applyGain DEFAULT_BRAIN_STRUCTURE 3).intelligence_points = 200
  ∧ (applyGain DEFAULT_BRAIN_STRUCTURE 3).level = 2
  ∧ LevelInv (applyGain DEFAULT_BRAIN_STRUCTURE 3)
  ∧ LevelInv (iterGain DEFAULT_BRAIN_STRUCTURE [1])
  ∧ (iterGain DEFAULT_BRAIN_STRUCTURE [1]).level
      ≤ (iterGain DEFAULT_BRAIN_STRUCTURE ([1] ++ [2])).level := by
  obtain ⟨h1, h2, h3, h4, h5⟩ := C3_applyGain DEFAULT_BRAIN_STRUCTURE 3 [1] [2]
  exact ⟨h1.trans (by decide), (h2 (by decide)).trans (by decide),
    (h3 (by decide)).1, h4, h5⟩

/-- C4 (counterexample): with the primary file unparseable and the backup
file unparseable as well, `load_brain` re-raises the parse error from the
second `json.load` instead of falling back to bootstrap. -/
theorem C4_counterexample :
    load_brain { primary := some .invalid, backup := some .invalid }
      = .error () := rfl

/-- C4 (amended): `load_brain` returns the primary's document verbatim
when it parses; recovers a parseable backup by copying it over the
primary; bootstraps when the primary is missing, or unparseable with no
backup; but when primary and backup are both unparseable it propagates
the parse error instead of bootstrapping. -/
theorem C4_load (fs : FS) (doc : Brain) :
    (fs.primary = some (.valid doc) → load_brain fs = .ok (doc, fs))
  ∧ (fs.primary = some .invalid → fs.backup = some (.valid doc) →
      load_brain fs = .ok (doc, { fs with primary := some (.valid doc) }))
  ∧ (fs.primary = some .invalid → fs.backup = none →
      load_brain fs = .ok (create_new_brain fs))
  ∧ (fs.primary = none → load_brain fs = .ok (create_new_brain fs))
  ∧ (fs.primary = some .invalid → fs.backup = some .invalid →
      load_brain fs = .error ()) := by
  obtain ⟨p, b⟩ := fs
  refine ⟨fun h1 => ?_, fun h1 h2 => ?_, fun h1 h2 => ?_, fun h1 => ?_, fun h1 h2 => ?_⟩
  all_goals simp only at h1 ⊢
  all_goals subst h1
  all_goals try simp only at h2
  all_goals try subst h2
  all_goals rfl

/-- C4 witness: the four recoverable file states and the fatal one,
exercised concretely. -/
theorem C4_witness :
    load_brain fs0 = .ok (DEFAULT_BRAIN_STRUCTURE, fs0)
  ∧ load_brain { primary := some .invalid, backup := some (.valid DEFAULT_BRAIN_STRUCTURE) }
      = .ok (DEFAULT_BRAIN_STRUCTURE,
          { primary := some (.valid DEFAULT_BRAIN_STRUCTURE)
            backup := some (.valid DEFAULT_BRAIN_STRUCTURE) })
  ∧ load_brain { primary := some .invalid, backup := none }
      = .ok (create_new_brain { primary := some .invalid, backup := none })
  ∧ load_brain { primary := none, backup := none }
      = .ok (create_new_brain { primary := none, backup := none })
  ∧ load_brain { primary := some .invalid, backup := some .invalid }
      = .error () := by
  refine ⟨(C4_load fs0 DEFAULT_BRAIN_STRUCTURE).1 rfl,
    (C4_load _ DEFAULT_BRAIN_STRUCTURE).2.1 rfl rfl,
    (C4_load _ DEFAULT_BRAIN_STRUCTURE).2.2.1 rfl rfl,
    (C4_load _ DEFAULT_BRAIN_STRUCTURE).2.2.2.1 rfl,
    (C4_load _ DEFAULT_BRAIN_STRUCTURE).2.2.2.2 rfl rfl⟩

/-- C5: whenever the primary file exists, after any run of successive
successful saves followed by one more, the primary holds the last saved
document while the backup holds exactly what the primary held before that
final save — the backup never reflects the in-flight write. -/
theorem C5_backup_ordering (s : FS) (ds : List Brain) (d : Brain)
    (h : s.primary.isSome) :
    (commits s (ds ++ [d])).primary = some (.valid d)
  ∧ (commits s (ds ++ [d])).backup = (commits s ds).primary := by
  rw [commits_append_single]
  exact ⟨rfl, by simp [commitFS, commits_primary_isSome ds s h]⟩

/-- C5 witness: one successful save from the bootstrapped directory. -/
theorem C5_witness :
    (commits fs0 ([] ++ [DEFAULT_BRAIN_STRUCTURE])).primary
      = some (.valid DEFAULT_BRAIN_STRUCTURE)
  ∧ (commits fs0 ([] ++ [DEFAULT_BRAIN_STRUCTURE])).backup
      = (commits fs0 []).primary :=
  C5_backup_ordering fs0 [] DEFAULT_BRAIN_STRUCTURE (by decide)

/-- C6: against any working directory with no primary file, loading
bootstraps: it writes the fixed blueprint document as the new primary and
returns it — the same document for any two such directories — and that
document has level 1, 50 intelligence points and a single seeded category
holding a single seeded fact. -/
theorem C6_bootstrap (fs fs2 : FS) (h : fs.primary = none)
    (h2 : fs2.primary = none) :
    load_brain fs = .ok (DEFAULT_BRAIN_STRUCTURE,
      { fs with primary := some (.valid DEFAULT_BRAIN_STRUCTURE) })
  ∧ load_brain fs2 = .ok (DEFAULT_BRAIN_STRUCTURE,
      { fs2 with primary := some (.valid DEFAULT_BRAIN_STRUCTURE) })
  ∧ DEFAULT_BRAIN_STRUCTURE.level = 1
  ∧ DEFAULT_BRAIN_STRUCTURE.intelligence_points = 50
  ∧ DEFAULT_BRAIN_STRUCTURE.long_term_memory.map (fun p => p.2.length) = [1] := by
  obtain ⟨p, b⟩ := fs
  obtain ⟨p2, b2⟩ := fs2
  simp only at h h2
  subst h
  subst h2
  exact ⟨rfl, rfl, rfl, rfl, by decide⟩

/-- C6 witness: two fresh directories, one with a stray corrupt backup,
bootstrap to the identical seeded document. -/
theorem C6_witness :
    load_brain { primary := none, backup := none }
      = .ok (DEFAULT_BRAIN_STRUCTURE,
          { primary := some (.valid DEFAULT_BRAIN_STRUCTURE), backup := none })
  ∧ load_brain { primary := none, backup := some .invalid }
      = .ok (DEFAULT_BRAIN_STRUCTURE,
          { primary := some (.valid DEFAULT_BRAIN_STRUCTURE)
            backup := some .invalid })
  ∧ DEFAULT_BRAIN_STRUCTURE.level = 1
  ∧ DEFAULT_BRAIN_STRUCTURE.intelligence_points = 50
  ∧ DEFAULT_BRAIN_STRUCTURE.long_term_memory.map (fun p => p.2.length) = [1] :=
  C6_bootstrap { primary := none, backup := none }
    { primary := none, backup := some .invalid } rfl rfl

/-- C7: recall matches case-insensitively on the lowercased, stripped
query: a category whose name contains the query reports every one of its
facts; otherwise each fact whose data contains the query is reported
individually; a query matching nothing yields no results; and no fact is
ever reported twice (the output never exceeds the total fact count). -/
theorem C7_recall (memories : Ltm) (q : Str) (p : Str × List Fact)
    (item : Fact) (hp : p ∈ memories) :
    (stripStr (lowerStr q) <:+: lowerStr p.1 → item ∈ p.2 →
      (p.1, item) ∈ recall_memory memories q)
  ∧ (¬ stripStr (lowerStr q) <:+: lowerStr p.1 → item ∈ p.2 →
      stripStr (lowerStr q) <:+: lowerStr item.data →
      (p.1, item) ∈ recall_memory memories q)
  ∧ ((∀ r ∈ memories, ¬ stripStr (lowerStr q) <:+: lowerStr r.1 ∧
      ∀ it ∈ r.2, ¬ stripStr (lowerStr q) <:+: lowerStr it.data) →
      recall_memory memories q = [])
  ∧ (recall_memory memories q).length
      ≤ (memories.map (fun r => r.2.length)).sum :=
  ⟨fun hq hi => recall_mem_catHit memories q p item hp hq hi,
   fun hq hi hd => recall_mem_dataHit memories q p item hp hq hi hd,
   recall_nothing memories q,
   recall_length_le memories q⟩

/-- C7 witness: on the ENGINE/LEGAL example document, searching "engine"
finds the IGBT fact through the category name, searching "igbt" finds the
same fact through its content, and searching "zzz" finds nothing. -/
theorem C7_witness :
    ("ENGINE".toList, igbtFact) ∈ recall_memory exampleMem "engine".toList
  ∧ ("ENGINE".toList, igbtFact) ∈ recall_memory exampleMem "igbt".toList
  ∧ recall_memory exampleMem "zzz".toList = [] := by
  refine ⟨?_, ?_, ?_⟩
  · exact (C7_recall exampleMem "engine".toList ("ENGINE".toList, [igbtFact])
      igbtFact (by decide)).1 (by decide) (by decide)
  · exact (C7_recall exampleMem "igbt".toList ("ENGINE".toList, [igbtFact])
      igbtFact (by decide)).2.1 (by decide) (by decide) (by decide)
  · exact (C7_recall exampleMem "zzz".toList ("ENGINE".toList, [igbtFact])
      igbtFact (by decide)).2.2.1 (by decide)

/-- C8: after any commit cycle the staging buffer is empty whether or not
the save step succeeded, the resulting in-memory document is the same in
both cases (drained facts are never re-queued, merged facts are kept), and
the save outcome is reported as a flag rather than raised. -/
theorem C8_buffer_lifecycle (attrs : Brain) (stm : List PendingFact)
    (fs : FS) (ioOk : Bool) :
    (sleep_and_save attrs stm fs ioOk).short_term_memory = []
  ∧ (sleep_and_save attrs stm fs ioOk).attrs = (sleep_and_save attrs stm fs true).attrs
  ∧ (sleep_and_save attrs stm fs false).saved = false
  ∧ (sleep_and_save attrs stm fs true).saved = true :=
  ⟨rfl, rfl, rfl, rfl⟩

/-- C9: learn touches only the staging buffer, and a commit cycle never
changes the profile block, never drops a category from long-term memory,
and only ever appends to a category's fact list — stored facts are never
removed, modified or reordered. -/
theorem C9_frame (attrs : Brain) (stm : List PendingFact) (fs : FS)
    (ioOk : Bool) (s : Session) (c k t : Str) (cat : Str) (fsc : List Fact) :
    (Session.learn s c k t).attributes = s.attributes
  ∧ (sleep_and_save attrs stm fs ioOk).attrs.master_info = attrs.master_info
  ∧ (ltmLookup attrs.long_term_memory cat = some fsc →
      ∃ ex, ltmLookup (sleep_and_save attrs stm fs ioOk).attrs.long_term_memory cat
        = some (fsc ++ ex)) := by
  refine ⟨rfl, ?_, ?_⟩
  · exact applyGain_master
      { attrs with long_term_memory := commitMemory attrs.long_term_memory stm }
      stm.length
  · intro h
    rw [show (sleep_and_save attrs stm fs ioOk).attrs.long_term_memory
          = commitMemory attrs.long_term_memory stm from
        applyGain_ltm
          { attrs with long_term_memory := commitMemory attrs.long_term_memory stm }
          stm.length]
    exact ltmLookup_commitMemory_append stm attrs.long_term_memory cat fsc h

/-- C9 witness: a commit of one fresh fact keeps the bootstrap profile
untouched and extends (never rewrites) the seeded category. -/
theorem C9_witness :
    (Session.learn { attributes := DEFAULT_BRAIN_STRUCTURE, short_term_memory := [] }
        "a".toList "b".toList "c".toList).attributes = DEFAULT_BRAIN_STRUCTURE
  ∧ (sleep_and_save DEFAULT_BRAIN_STRUCTURE [exPending] fs0 true).attrs.master_info
      = DEFAULT_BRAIN_STRUCTURE.master_info
  ∧ ∃ ex, ltmLookup (sleep_and_save DEFAULT_BRAIN_STRUCTURE [exPending] fs0
      true).attrs.long_term_memory "CORE_DIRECTIVE".toList = some ([coreFact] ++ ex) := by
  obtain ⟨h1, h2, h3⟩ := C9_frame DEFAULT_BRAIN_STRUCTURE [exPending] fs0 true
    { attributes := DEFAULT_BRAIN_STRUCTURE, short_term_memory := [] }
    "a".toList "b".toList "c".toList "CORE_DIRECTIVE".toList [coreFact]
  exact ⟨h1, h2, h3 (by decide)⟩

/-- C10: a query that is empty after lowercasing and stripping is a
substring of every category name, so recall reports every fact of every
category through the category-name rule. -/
theorem C10_blank_query (memories : Ltm) (q : Str)
    (h : stripStr (lowerStr q) = []) :
    recall_memory memories q
      = memories.flatMap (fun p => p.2.map (fun item => (p.1, item))) :=
  recall_blank memories q h

/-- C10 witness: a whitespace-only query on the ENGINE/LEGAL document
returns every stored fact. -/
theorem C10_witness :
    recall_memory exampleMem "  ".toList
      = [("ENGINE".toList, igbtFact), ("LEGAL".toList, caseFact)] :=
  (C10_blank_query exampleMem "  ".toList (by decide)).trans (by decide)

end MiniBrain
